import Mathlib

/-!
Verification of the AI-Novelist pipeline core: the run/fix experiment loop
(`perform_experiments.py`), the idea-generation reflection loop
(`generate_ideas.py`), and the per-idea error handling in `launch_novelist.py`.

Python strings are embedded as `List Char`; external effects (the coding
assistant, the language model, the filesystem, subprocesses) are passed in as
explicit oracle streams, so every function here is a pure, executable
translation of the corresponding Python code.
-/

/-- Python `str`, embedded as its sequence of characters. -/
abbrev Str := List Char

/-- Python's `needle in hay` substring test on strings. -/
def strContains (hay needle : Str) : Bool :=
  match hay with
  | [] => needle.isEmpty
  | c :: t => needle.isPrefixOf (c :: t) || strContains t needle

/-- Exceptions that the embedded code can raise. -/
inductive PyErr where
  /-- `FileNotFoundError` from `open` on a missing file. -/
  | fileNotFound
  /-- `json.JSONDecodeError` from `json.load` on malformed content. -/
  | jsonDecode
  /-- `UnboundLocalError` from reading a never-assigned local variable. -/
  | unboundLocal
  /-- `AssertionError` from a failed `assert`. -/
  | assertionError
  deriving DecidableEq

/-- A parsed `results.json` payload; modelled as a string-keyed,
string-valued dictionary (`{}` is `[]`). -/
abbrev PyDict := List (Str × Str)

/-- State of the `run_{run_num}/results.json` artifact on disk when
`run_experiment` tries to read it back. -/
inductive Artifact where
  /-- The file does not exist: `open` raises `FileNotFoundError`. -/
  | missing
  /-- The file exists but is not valid JSON: `json.load` raises. -/
  | malformed
  /-- The file parses to the given dictionary. -/
  | valid (v : PyDict)
  deriving DecidableEq

/-- Outcome of the `subprocess.run` call inside `run_experiment`: either the
child exited with a return code and captured stderr text, or the wall-clock
timeout elapsed (`TimeoutExpired`). -/
inductive ProcOutcome where
  | completed (returncode : Int) (stderr : Str)
  | timedOut
  deriving DecidableEq

/-- Constant `MAX_ITERS = 3` (perform_experiments.py line 8). -/
def MAX_ITERS : Nat := 3

/-- Constant `MAX_RUNS = 3` (perform_experiments.py line 9). -/
def MAX_RUNS : Nat := 3

/-- Constant `MAX_STDERR_OUTPUT = 1500` (perform_experiments.py line 10). -/
def MAX_STDERR_OUTPUT : Nat := 1500

/-- Lines 70-72 of perform_experiments.py:
`if len(stderr_output) > MAX_STDERR_OUTPUT: stderr_output = "..." + stderr_output[-MAX_STDERR_OUTPUT:]`.
Python's `s[-n:]` for `len(s) > n` keeps the last `n` characters. -/
def truncStderr (stderr_output : Str) : Str :=
  if MAX_STDERR_OUTPUT < stderr_output.length then
    "...".toList ++ stderr_output.drop (stderr_output.length - MAX_STDERR_OUTPUT)
  else
    stderr_output

/-- The fixed prefix of the failure prompt:
`f"Run failed with the following error {stderr_output}"`. -/
def failMsg : Str := "Run failed with the following error ".toList

/-- ASCII single quote, used by Python `repr` of a string. -/
def squote : Char := Char.ofNat 39

/-- Opening curly brace character. -/
def lbraceChar : Char := Char.ofNat 123

/-- Closing curly brace character. -/
def rbraceChar : Char := Char.ofNat 125

/-- Python `repr` of a string value (as it appears inside `str(dict)`),
for strings needing no escaping. -/
def pyReprStr (s : Str) : Str := squote :: s ++ [squote]

/-- Python `str()` of a string-keyed, string-valued dict, as interpolated by
the f-string `f"...{results}..."`: `{}` when empty, else
`{'k': 'v', ...}`. -/
def pyReprDict (d : PyDict) : Str :=
  [lbraceChar]
    ++ List.intercalate (", ".toList)
        (d.map fun kv => pyReprStr kv.1 ++ ": ".toList ++ pyReprStr kv.2)
    ++ [rbraceChar]

/-- The success follow-up prompt of `run_experiment`
(perform_experiments.py lines 78-89), an f-string interpolating the run
number and the results dictionary. -/
def successPrompt (run_num : Nat) (results : PyDict) : Str :=
  "Run ".toList ++ (toString run_num).toList
    ++ " completed. Here are the results:\n".toList
    ++ pyReprDict results
    ++ "\n\nDecide if you need to re-plan your experiments given the result (you often will not need to).\n\nSomeone else will be using `notes.txt` to perform a writeup on this in the future.\nPlease include *all* relevant information for the writeup on Run ".toList
    ++ (toString run_num).toList
    ++ ", including an experiment description and the run number. Be as verbose as necessary.\n\nThen, implement the next thing on your list.\nWe will then run the command `python experiment.py --out_dir=run_".toList
    ++ (toString (run_num + 1)).toList
    ++ "\x27.\nYOUR PROPOSED CHANGE MUST USE THIS COMMAND FORMAT, DO NOT ADD ADDITIONAL COMMAND LINE ARGS.\nIf you are finished with experiments, respond with \x27ALL_COMPLETED\x27.".toList

/-- The fixed timeout failure prompt: `f"Run timed out after {timeout} seconds"`. -/
def timeoutMsg (timeout : Nat) : Str :=
  "Run timed out after ".toList ++ (toString timeout).toList ++ " seconds".toList

/-- Embedding of `run_experiment` (perform_experiments.py lines 41-96).

Inputs model the environment: `proc` is the subprocess outcome, `artifact`
the state of `run_{run_num}/results.json`, `runDirExists` whether the
attempt's output directory exists when the outcome is classified. The value
is `(returncode, next_prompt, results)` paired with whether the attempt's
output directory still exists after the call; exceptions escaping the
function (`FileNotFoundError` / `JSONDecodeError` from the artifact read)
are `.error`. The initial `shutil.copy` snapshot of `experiment.py` and the
stderr echo to the parent's stderr are I/O with no bearing on the returned
value and are not modelled. On both failure branches the code removes the
output directory if it exists, so the directory does not exist afterwards;
`results` is still the initial `{}` there. -/
def run_experiment (proc : ProcOutcome) (artifact : Artifact)
    (runDirExists : Bool) (run_num : Nat) (timeout : Nat) :
    Except PyErr ((Int × Str × PyDict) × Bool) :=
  match proc with
  | .completed returncode stderr =>
    if returncode ≠ 0 then
      .ok ((returncode, failMsg ++ truncStderr stderr, []), false)
    else
      match artifact with
      | .missing => .error .fileNotFound
      | .malformed => .error .jsonDecode
      | .valid results =>
        .ok ((returncode, successPrompt run_num results, results), runDirExists)
  | .timedOut =>
    .ok ((1, timeoutMsg timeout, []), false)

/-- The completion marker `"ALL_COMPLETED"` scanned for in the coder's
reply (perform_experiments.py line 122). -/
def allCompleted : Str := "ALL_COMPLETED".toList

/-- One observable event of the run/fix loop: a coder reply that was
consumed, or an experiment attempt with its return code. -/
inductive Ev where
  | reply (s : Str)
  | attempt (rc : Int)
  deriving DecidableEq

/-- Lines 125-128 of perform_experiments.py, the counter update after each
attempt: `if return_code == 0: run += 1; current_iter = 0` followed by the
unconditional `current_iter += 1`. -/
def updateCounters (current_iter run : Nat) (return_code : Int) : Nat × Nat :=
  let s := if return_code = 0 then (0, run + 1) else (current_iter, run)
  (s.1 + 1, s.2)

/-- Lines 129-133 of perform_experiments.py, executed when the `while` loop
exits: `if current_iter >= MAX_ITERS: return False, results` else
`return True, results`.  Reading `results` when it was never assigned
raises `UnboundLocalError`. -/
def loopReturn (current_iter : Nat) (results : Option PyDict) :
    Except PyErr (Bool × PyDict) :=
  if MAX_ITERS ≤ current_iter then
    match results with
    | some r => .ok (false, r)
    | none => .error .unboundLocal
  else
    match results with
    | some r => .ok (true, r)
    | none => .error .unboundLocal

/-- The `run_experiment(folder_name, run)` call of perform_experiments.py
line 124: the environment of the `n`-th invocation (subprocess outcome,
artifact state, directory-exists flag) is given by the oracle stream `env`;
the default `timeout=7200` applies. -/
def runExperimentAt (env : Nat → ProcOutcome × Artifact × Bool)
    (n run_num : Nat) : Except PyErr ((Int × Str × PyDict) × Bool) :=
  run_experiment (env n).1 (env n).2.1 (env n).2.2 run_num 7200

/-- The `while run < MAX_RUNS + 1` loop of perform_experiments.py
lines 116-133, from an arbitrary state.

`coder` is the oracle stream of the external coding assistant's replies
(`coder.run`, stateful across calls, indexed by call count `ncoder`); `env`
is the oracle stream of `run_experiment` environments indexed by invocation
count `nrun`; `results` is the current value of the local `results`
variable (`none` when not yet assigned).  Besides the returned value the
embedding also records the trace of consumed events. -/
def experimentsLoop (coder : Nat → Str)
    (env : Nat → ProcOutcome × Artifact × Bool)
    (current_iter run ncoder nrun : Nat) (results : Option PyDict) :
    Except PyErr (Bool × PyDict) × List Ev :=
  if run < MAX_RUNS + 1 then
    if MAX_ITERS ≤ current_iter then
      (loopReturn current_iter results, [])
    else
      let coder_out := coder ncoder
      if strContains coder_out allCompleted then
        (loopReturn current_iter results, [Ev.reply coder_out])
      else
        match runExperimentAt env nrun run with
        | .error e => (.error e, [Ev.reply coder_out])
        | .ok ((return_code, _next_prompt, res), _dir) =>
          let st := updateCounters current_iter run return_code
          let next := experimentsLoop coder env st.1 st.2
            (ncoder + 1) (nrun + 1) (some res)
          (next.1, Ev.reply coder_out :: Ev.attempt return_code :: next.2)
  else
    (loopReturn current_iter results, [])
termination_by (MAX_RUNS + 1 - run) * (MAX_ITERS + 1) + (MAX_ITERS - current_iter)
decreasing_by
  simp only [updateCounters, MAX_RUNS, MAX_ITERS] at *
  split <;> simp_all <;> omega

/-- Embedding of `perform_experiments` (perform_experiments.py
lines 99-133): `current_iter = 0`, `run = 1`, `results` unassigned, then
the run/fix loop.  The initial `coder_prompt.format(...)` rendering only
affects the text of the first prompt sent to the coder, whose reply is
`coder 0`. -/
def perform_experiments (coder : Nat → Str)
    (env : Nat → ProcOutcome × Artifact × Bool) :
    Except PyErr (Bool × PyDict) × List Ev :=
  experimentsLoop coder env 0 1 0 0 none

/-- The return codes of the attempts in a trace, in order. -/
def attemptRCs : List Ev → List Int
  | [] => []
  | Ev.reply _ :: t => attemptRCs t
  | Ev.attempt rc :: t => rc :: attemptRCs t

/-- Number of successful attempts (return code 0) in a trace. -/
def successCount (tr : List Ev) : Nat :=
  List.countP (fun rc => rc == 0) (attemptRCs tr)

/-- Whether some consumed coder reply in the trace contains the completion
marker. -/
def hasMarkerReply (tr : List Ev) : Bool :=
  tr.any fun e =>
    match e with
    | Ev.reply s => strContains s allCompleted
    | Ev.attempt _ => false

/-- Length of the leading block of failed attempts (non-zero return codes). -/
def leadFails : List Int → Nat
  | [] => 0
  | rc :: t => if rc = 0 then 0 else leadFails t + 1

/-- Length of the longest run of consecutive failed attempts. -/
def maxConsecFails : List Int → Nat
  | [] => 0
  | rc :: t => max (if rc = 0 then 0 else leadFails t + 1) (maxConsecFails t)

/-- The success condition of spec property 4, read on the executed event
trace: some prefix of the trace reaches `MAX_RUNS` successful attempts or
contains a completion-marker reply, while fewer than `MAX_ITERS`
consecutive failed attempts have accumulated in that prefix. -/
def specSuccess (tr : List Ev) : Prop :=
  ∃ p, p <+: tr
    ∧ (successCount p = MAX_RUNS ∨ hasMarkerReply p = true)
    ∧ maxConsecFails (attemptRCs p) < MAX_ITERS

/-- A coder whose every reply is exactly the completion marker. -/
def coderMarker : Nat → Str := fun _ => allCompleted

/-- A coder whose every reply is `"ok"` (never contains the marker). -/
def coderQuiet : Nat → Str := fun _ => "ok".toList

/-- An environment where every attempt exits 0 with a valid empty
`results.json`. -/
def envAllOk : Nat → ProcOutcome × Artifact × Bool :=
  fun _ => (.completed 0 [], .valid [], true)

/-- The experiments phase of `do_idea` (launch_novelist.py lines 170-179):
`perform_experiments` runs in a `try` block whose handler prints the error
and returns `False`, and an overall-failure flag also returns `False`;
otherwise execution proceeds to the writeup stage. `some b` means `do_idea`
returns `b` at this stage, `none` that it proceeds. -/
def doIdeaExperimentPhase (outcome : Except PyErr (Bool × PyDict)) :
    Option Bool :=
  match outcome with
  | .error _ => some false
  | .ok (success, _results) => if success then none else some false

/-- An environment where every attempt exits 0 but `results.json` is
missing. -/
def envMissing : Nat → ProcOutcome × Artifact × Bool :=
  fun _ => (.completed 0 [], .missing, true)

/-- The convergence phrase `"I am done"` scanned for in reflection replies
(generate_ideas.py line 191). -/
def doneMarker : Str := "I am done".toList

/-- Lines 168-171 / 143-146 of generate_ideas.py:
`items = [json.dumps(o) for o in json_output]` followed by
`"\n\n".join(items)`.  `dumps` is the oracle for `json.dumps` on one
object. -/
def itemsJoin {κ : Type} (dumps : κ → Str) (out : List κ) : Str :=
  List.intercalate ("\n\n".toList) (out.map dumps)

/-- The reflection loop `for j in range(num_reflections - 1)` of
generate_ideas.py lines 174-193, started after `j` rounds have already run
with `fuel` rounds remaining.  `texts n` is the reply text of this idea's
`n`-th model call (call 0 is the first draft, so round `j` consumes
`texts (j + 1)`); `extractJ` is the oracle for
`extract_json_between_markers`, already normalized to a sequence of
objects.  A `none` extraction fails the `assert` (AssertionError); a reply
containing the convergence phrase breaks out of the loop.  Returns the
final `json_output` (or the exception) and the number of model calls
consumed. -/
def reflLoop {κ : Type} (texts : Nat → Str) (extractJ : Str → Option (List κ))
    (j fuel : Nat) (json_output : List κ) : Except PyErr (List κ) × Nat :=
  match fuel with
  | 0 => (.ok json_output, 0)
  | fuel + 1 =>
    let text := texts (j + 1)
    match extractJ text with
    | none => (.error .assertionError, 1)
    | some out =>
      if strContains text doneMarker then
        (.ok out, 1)
      else
        let next := reflLoop texts extractJ (j + 1) fuel out
        (next.1, next.2 + 1)

/-- Outcome of one idea's generation sequence. -/
structure IdeaOutcome (κ : Type) where
  /-- The final `json_output` appended to the archive, or the exception
  that aborted the idea. -/
  result : Except PyErr (List κ)
  /-- Number of model calls consumed for this idea. -/
  calls : Nat
  /-- The new value assigned to `prev_idea` (line 171), when the
  first-draft extraction succeeded. -/
  prevUpdate : Option Str

/-- One idea's sequence (generate_ideas.py lines 151-195, the body of the
`try`): first-draft call, extraction (whose failure raises
AssertionError), `prev_idea` reassignment, then the reflection loop when
`num_reflections > 1`. -/
def ideaSeq {κ : Type} (texts : Nat → Str) (extractJ : Str → Option (List κ))
    (dumps : κ → Str) (num_reflections : Nat) : IdeaOutcome κ :=
  let text := texts 0
  match extractJ text with
  | none => ⟨.error .assertionError, 1, none⟩
  | some json_output =>
    let prev := itemsJoin dumps json_output
    if 1 < num_reflections then
      let next := reflLoop texts extractJ 0 (num_reflections - 1) json_output
      ⟨next.1, next.2 + 1, some prev⟩
    else
      ⟨.ok json_output, 1, some prev⟩

/-- The outer loop `for i in range(max_num_generations)` of
generate_ideas.py lines 148-198, from a state where `callBase` model calls
have been made and `prev_idea = prev`.  Returns the idea-string archive
entries produced from here on, a log recording per idea the `prev_idea`
value its first-draft prompt was rendered with (the `.format` argument of
line 158) together with that idea's `prev_idea` reassignment, and the
total call count at the end.  An exception during one idea's sequence is
caught (`except ... continue`): nothing is appended for that idea and the
loop proceeds with the next one. -/
def genLoop {κ : Type} (texts : Nat → Str) (extractJ : Str → Option (List κ))
    (dumps : κ → Str) (dumpsAll : List κ → Str) (num_reflections : Nat)
    (fuel callBase : Nat) (prev : Str) :
    List Str × List (Str × Option Str) × Nat :=
  match fuel with
  | 0 => ([], [], callBase)
  | fuel + 1 =>
    let s := ideaSeq (fun n => texts (callBase + n)) extractJ dumps num_reflections
    let rest := genLoop texts extractJ dumps dumpsAll num_reflections fuel
      (callBase + s.calls) (s.prevUpdate.getD prev)
    match s.result with
    | .ok out => (dumpsAll out :: rest.1, (prev, s.prevUpdate) :: rest.2.1, rest.2.2)
    | .error _ => (rest.1, (prev, s.prevUpdate) :: rest.2.1, rest.2.2)

/-- State of `ideas.json` in `base_dir` when `generate_ideas` starts. -/
inductive IdeasFile (ι : Type) where
  /-- The file does not exist (`FileNotFoundError`, caught). -/
  | absent
  /-- The file exists but is not valid JSON (`JSONDecodeError`, caught). -/
  | malformed
  /-- The file parses to the given list. -/
  | parsed (ideas : List ι)

/-- Result of a `generate_ideas` call. -/
structure GenResult (ι : Type) where
  /-- The returned list of ideas. -/
  ideas : List ι
  /-- Total number of model calls performed. -/
  llmCalls : Nat
  /-- `some l` when the call rewrote `ideas.json` with `l`; `none` when it
  did not write the file. -/
  wroteIdeasJson : Option (List ι)
  /-- Per attempted idea, the `prev_idea` value its first-draft prompt was
  rendered with and the `prev_idea` reassignment it produced. -/
  log : List (Str × Option Str)
  /-- The `idea_str_archive` at the end of the loop. -/
  archive : List Str

/-- Lines 138-146 of generate_ideas.py: `prev_idea = ""`, replaced by the
join of the dumped seed ideas when `seed_idea.json` exists. -/
def initialPrevIdea {κ : Type} (dumps : κ → Str)
    (seedFile : Option (List κ)) : Str :=
  match seedFile with
  | some seed_ideas => itemsJoin dumps seed_ideas
  | none => []

/-- Embedding of `generate_ideas` (generate_ideas.py lines 88-205).

`ideasFile` is the state of `base_dir/ideas.json`; `seedFile` is the parsed
`seed_idea.json` when that file exists; `texts` is the oracle stream of
model reply texts indexed by global call count; `extractJ`, `dumps`,
`dumpsAll` and `loads` are the oracles for `extract_json_between_markers`,
`json.dumps` on one object, `json.dumps` on the whole extracted value and
`json.loads` on an archived string.  The `prompt.json` and
`original_work_info.json` reads only feed the prompt renderer and are not
modelled.  With `skip_generation` set and a parseable `ideas.json`, the
function returns the persisted list at once (lines 118-125); otherwise
`prev_idea` starts empty or as the seed-idea join (lines 138-146) and the
generation loop runs, after which the archive is parsed back and written to
`ideas.json` (lines 200-203). -/
def generate_ideas {κ ι : Type} (ideasFile : IdeasFile ι)
    (skip_generation : Bool) (texts : Nat → Str)
    (extractJ : Str → Option (List κ)) (dumps : κ → Str)
    (dumpsAll : List κ → Str) (loads : Str → ι)
    (seedFile : Option (List κ))
    (max_num_generations num_reflections : Nat) : GenResult ι :=
  match skip_generation, ideasFile with
  | true, .parsed ideas => ⟨ideas, 0, none, [], []⟩
  | _, _ =>
    let prev_idea : Str := initialPrevIdea dumps seedFile
    let g := genLoop texts extractJ dumps dumpsAll num_reflections
      max_num_generations 0 prev_idea
    let ideas := g.1.map loads
    ⟨ideas, g.2.2, some ideas, g.2.1, g.1⟩

/-- The replacement semantics of `prev_idea` along the idea log: the first
idea's prompt is rendered with the given value, and each idea's successful
first-draft extraction replaces (rather than extends) the value used for
the next idea. -/
def prevChain : Str → List (Str × Option Str) → Prop
  | _, [] => True
  | p, (pa, upd) :: t => pa = p ∧ prevChain (upd.getD p) t

/-- Reply stream whose call 1 is the convergence phrase. -/
def textsDemo : Nat → Str := fun n => if n = 1 then doneMarker else "draft".toList

/-- Extraction oracle that always succeeds with the payload `[0]`. -/
def extractDemo : Str → Option (List Nat) := fun _ => some [0]

/-- Extraction oracle that never finds a payload. -/
def extractNone : Str → Option (List Nat) := fun _ => none

/-- Oracle for `json.dumps` on `Nat` objects. -/
def dumpsNat : Nat → Str := fun n => (toString n).toList

/-- Oracle for `json.dumps` on whole `List Nat` payloads. -/
def dumpsAllNat : List Nat → Str := fun l => (toString l).toList

/-- Extraction oracle that always succeeds with the payload `[5]`. -/
def extractFive : Str → Option (List Nat) := fun _ => some [5]

/-- Oracle for `json.loads` on archived strings (its values are irrelevant to
the logged prompts). -/
def loadsNat : Str → Nat := fun _ => 0

/-- C6: for every `run_experiment` invocation ending in a non-zero exit
status or in a timeout, the attempt's output directory is deleted if it
exists (the directory-exists flag of the result is `false` regardless of its
value on entry), and the function returns a non-zero return code together
with a failure prompt: the non-zero-exit case embeds the truncated stderr
text after the fixed failure prefix, and the timeout case is the fixed
timeout message. -/
theorem C6_failure_cleanup_and_prompt (rc : Int) (se : Str) (a : Artifact)
    (d : Bool) (rn t : Nat) (h : rc ≠ 0) :
    run_experiment (.completed rc se) a d rn t
      = .ok ((rc, failMsg ++ truncStderr se, []), false)
    ∧ run_experiment .timedOut a d rn t
      = .ok ((1, timeoutMsg t, []), false) := by
  constructor
  · simp [run_experiment, h]
  · rfl

/-- Witness for C6 at a concrete failed run and a concrete timed-out run. -/
theorem C6_failure_cleanup_and_prompt_witness :
    run_experiment (.completed 2 ("boom".toList)) .missing true 5 7200
      = .ok ((2, failMsg ++ truncStderr ("boom".toList), []), false)
    ∧ run_experiment .timedOut .missing true 5 7200
      = .ok ((1, timeoutMsg 7200, []), false) :=
  C6_failure_cleanup_and_prompt 2 ("boom".toList) .missing true 5 7200 (by decide)

/-- C7: when the captured stderr text is longer than
`MAX_STDERR_OUTPUT = 1500` characters, the error text embedded in the
follow-up prompt starts with the truncation marker `"..."`, what follows the
marker is a suffix of the original stderr of length exactly
`MAX_STDERR_OUTPUT`, and the prompt is the fixed failure prefix followed by
this truncated text; stderr of length at most `MAX_STDERR_OUTPUT` is
embedded unmodified. -/
theorem C7_stderr_truncated_to_tail (se : Str) :
    (MAX_STDERR_OUTPUT < se.length →
      "...".toList <+: truncStderr se
      ∧ (truncStderr se).drop 3 <:+ se
      ∧ ((truncStderr se).drop 3).length = MAX_STDERR_OUTPUT
      ∧ ∀ rc : Int, ∀ a d rn t, rc ≠ 0 →
          run_experiment (.completed rc se) a d rn t
            = .ok ((rc, failMsg ++ truncStderr se, []), false))
    ∧ (se.length ≤ MAX_STDERR_OUTPUT → truncStderr se = se) := by
  constructor
  · intro h
    have hdef : truncStderr se
        = "...".toList ++ se.drop (se.length - MAX_STDERR_OUTPUT) := by
      simp [truncStderr, h]
    have hdrop : (truncStderr se).drop 3
        = se.drop (se.length - MAX_STDERR_OUTPUT) := by
      rw [hdef]
      simp
    refine ⟨⟨_, hdef.symm⟩, ?_, ?_, ?_⟩
    · rw [hdrop]; exact List.drop_suffix _ _
    · rw [hdrop, List.length_drop]
      have : MAX_STDERR_OUTPUT ≤ se.length := Nat.le_of_lt h
      omega
    · intro rc a d rn t hrc
      simp [run_experiment, hrc]
  · intro h
    unfold truncStderr
    rw [if_neg (Nat.not_lt.mpr h)]

/-- Witness for C7 at a concrete 1501-character stderr (and a short one). -/
theorem C7_stderr_truncated_to_tail_witness :
    ("...".toList <+: truncStderr (List.replicate 1501 'x')
      ∧ ((truncStderr (List.replicate 1501 'x')).drop 3).length = MAX_STDERR_OUTPUT)
    ∧ truncStderr ("ok".toList) = "ok".toList := by
  have h1501 : MAX_STDERR_OUTPUT < (List.replicate 1501 'x').length := by
    unfold MAX_STDERR_OUTPUT
    rw [List.length_replicate]
    omega
  have hlong := (C7_stderr_truncated_to_tail (List.replicate 1501 'x')).1 h1501
  have hshort := (C7_stderr_truncated_to_tail ("ok".toList)).2 (by decide)
  exact ⟨⟨hlong.1, hlong.2.2.1⟩, hshort⟩

theorem attemptRCs_append (l₁ l₂ : List Ev) :
    attemptRCs (l₁ ++ l₂) = attemptRCs l₁ ++ attemptRCs l₂ := by
  induction l₁ with
  | nil => rfl
  | cons e t ih => cases e <;> simp [attemptRCs, ih]

theorem successCount_mono {p tr : List Ev} (h : p <+: tr) :
    successCount p ≤ successCount tr := by
  obtain ⟨s, rfl⟩ := h
  simp [successCount, attemptRCs_append, List.countP_append]

theorem hasMarkerReply_mono {p tr : List Ev} (h : p <+: tr)
    (hm : hasMarkerReply p = true) : hasMarkerReply tr = true := by
  obtain ⟨s, rfl⟩ := h
  simp only [hasMarkerReply, List.any_append, Bool.or_eq_true]
  exact Or.inl hm

theorem successCount_reply (s : Str) (tr : List Ev) :
    successCount (Ev.reply s :: tr) = successCount tr := rfl

theorem successCount_attempt (rc : Int) (tr : List Ev) :
    successCount (Ev.attempt rc :: tr)
      = successCount tr + (if rc = 0 then 1 else 0) := by
  simp [successCount, attemptRCs, List.countP_cons]

theorem hasMarkerReply_reply (s : Str) (tr : List Ev) :
    hasMarkerReply (Ev.reply s :: tr)
      = (strContains s allCompleted || hasMarkerReply tr) := by
  simp [hasMarkerReply]

theorem hasMarkerReply_attempt (rc : Int) (tr : List Ev) :
    hasMarkerReply (Ev.attempt rc :: tr) = hasMarkerReply tr := by
  simp [hasMarkerReply]

theorem attemptRCs_reply (s : Str) (tr : List Ev) :
    attemptRCs (Ev.reply s :: tr) = attemptRCs tr := rfl

theorem attemptRCs_attempt (rc : Int) (tr : List Ev) :
    attemptRCs (Ev.attempt rc :: tr) = rc :: attemptRCs tr := rfl

theorem leadFails_cons (rc : Int) (l : List Int) :
    leadFails (rc :: l) = if rc = 0 then 0 else leadFails l + 1 := rfl

theorem maxConsecFails_cons (rc : Int) (l : List Int) :
    maxConsecFails (rc :: l)
      = max (if rc = 0 then 0 else leadFails l + 1) (maxConsecFails l) := rfl

theorem MAX_ITERS_pos : 0 < MAX_ITERS := by decide

theorem expLoop_ok_true (coder : Nat → Str) (env : Nat → ProcOutcome × Artifact × Bool) :
    ∀ ci run nc nr res,
    run ≤ MAX_RUNS + 1 →
    ∀ r tr, experimentsLoop coder env ci run nc nr res = (.ok (true, r), tr) →
    (successCount tr + run = MAX_RUNS + 1 ∨ hasMarkerReply tr = true)
    ∧ ci + leadFails (attemptRCs tr) < MAX_ITERS
    ∧ maxConsecFails (attemptRCs tr) < MAX_ITERS := by
  intro ci run nc nr res
  induction ci, run, nc, nr, res using experimentsLoop.induct coder env with
  | case1 ci run nc nr res h1 h2 =>
    intro hrun r tr heq
    rw [experimentsLoop, if_pos h1, if_pos h2] at heq
    cases res <;> simp [loopReturn, if_pos h2] at heq
  | case2 ci run nc nr res h1 h2 co h3 =>
    intro hrun r tr heq
    rw [experimentsLoop, if_pos h1, if_neg h2, if_pos h3] at heq
    cases res with
    | none => simp [loopReturn, if_neg h2] at heq
    | some rr =>
      simp only [loopReturn, if_neg h2, Prod.mk.injEq] at heq
      obtain ⟨-, htr⟩ := heq
      subst htr
      refine ⟨Or.inr ?_, ?_, ?_⟩
      · simp [hasMarkerReply, h3]
      · rw [attemptRCs_reply]
        simp only [attemptRCs, leadFails]
        omega
      · rw [attemptRCs_reply]
        simp only [attemptRCs, maxConsecFails]
        exact MAX_ITERS_pos
  | case3 ci run nc nr res h1 h2 co h3 e hx =>
    intro hrun r tr heq
    rw [experimentsLoop, if_pos h1, if_neg h2, if_neg h3, hx] at heq
    simp at heq
  | case4 ci run nc nr res h1 h2 co h3 rc np res' dir hx st ih =>
    intro hrun r tr heq
    rw [experimentsLoop, if_pos h1, if_neg h2, if_neg h3, hx] at heq
    simp only [Prod.mk.injEq] at heq
    obtain ⟨hA, htr⟩ := heq
    subst htr
    have hst2 : (updateCounters ci run rc).2 ≤ MAX_RUNS + 1 := by
      simp only [updateCounters]
      split <;> simp <;> omega
    set EL2 := experimentsLoop coder env (updateCounters ci run rc).1
      (updateCounters ci run rc).2 (nc + 1) (nr + 1) (some res') with hEL
    have hpair : EL2 = (Except.ok (true, r), EL2.2) := by
      rw [← hA]
    obtain ⟨ha, hb, hc⟩ := ih hst2 r EL2.2 hpair
    rw [attemptRCs_reply, attemptRCs_attempt, successCount_reply, successCount_attempt,
      hasMarkerReply_reply, hasMarkerReply_attempt, leadFails_cons, maxConsecFails_cons]
    by_cases hrc : rc = 0
    · have hu1 : (updateCounters ci run rc).1 = 1 := by
        simp [updateCounters, hrc]
      have hu2 : (updateCounters ci run rc).2 = run + 1 := by
        simp [updateCounters, hrc]
      rw [hu2] at ha
      rw [hu1] at hb
      simp only [hrc, if_pos] at *
      refine ⟨?_, by omega, ?_⟩
      · rcases ha with ha | ha
        · left
          omega
        · right
          simp [ha]
      · simp only [Nat.zero_max]
        exact hc
    · have hu1 : (updateCounters ci run rc).1 = ci + 1 := by
        simp [updateCounters, hrc]
      have hu2 : (updateCounters ci run rc).2 = run := by
        simp [updateCounters, hrc]
      rw [hu2] at ha
      rw [hu1] at hb
      simp only [hrc, if_neg, if_false] at *
      refine ⟨?_, by omega, ?_⟩
      · rcases ha with ha | ha
        · left
          omega
        · right
          simp [ha]
      · refine Nat.max_lt.mpr ⟨by omega, hc⟩
  | case5 ci run nc nr res h1 =>
    intro hrun r tr heq
    rw [experimentsLoop, if_neg h1] at heq
    cases res with
    | none =>
      unfold loopReturn at heq
      split at heq <;> simp at heq
    | some rr =>
      unfold loopReturn at heq
      split at heq
      · simp at heq
      · simp only [Prod.mk.injEq] at heq
        obtain ⟨-, htr⟩ := heq
        subst htr
        refine ⟨Or.inl ?_, ?_, ?_⟩
        · simp only [successCount, attemptRCs, List.countP_nil]
          omega
        · simp only [attemptRCs, leadFails]
          omega
        · simp only [attemptRCs, maxConsecFails]
          exact MAX_ITERS_pos

theorem expLoop_ok_false (coder : Nat → Str) (env : Nat → ProcOutcome × Artifact × Bool) :
    ∀ ci run nc nr res,
    run ≤ MAX_RUNS + 1 →
    (run = MAX_RUNS + 1 → ci < MAX_ITERS) →
    ∀ r tr, experimentsLoop coder env ci run nc nr res = (.ok (false, r), tr) →
    hasMarkerReply tr = false ∧ successCount tr + run ≤ MAX_RUNS := by
  intro ci run nc nr res
  induction ci, run, nc, nr, res using experimentsLoop.induct coder env with
  | case1 ci run nc nr res h1 h2 =>
    intro hrun hinv r tr heq
    rw [experimentsLoop, if_pos h1, if_pos h2] at heq
    cases res with
    | none => simp [loopReturn, if_pos h2] at heq
    | some rr =>
      simp only [loopReturn, if_pos h2, Prod.mk.injEq] at heq
      obtain ⟨-, htr⟩ := heq
      subst htr
      constructor
      · rfl
      · simp only [successCount, attemptRCs, List.countP_nil]
        omega
  | case2 ci run nc nr res h1 h2 co h3 =>
    intro hrun hinv r tr heq
    rw [experimentsLoop, if_pos h1, if_neg h2, if_pos h3] at heq
    cases res <;> simp [loopReturn, if_neg h2] at heq
  | case3 ci run nc nr res h1 h2 co h3 e hx =>
    intro hrun hinv r tr heq
    rw [experimentsLoop, if_pos h1, if_neg h2, if_neg h3, hx] at heq
    simp at heq
  | case4 ci run nc nr res h1 h2 co h3 rc np res' dir hx st ih =>
    intro hrun hinv r tr heq
    rw [experimentsLoop, if_pos h1, if_neg h2, if_neg h3, hx] at heq
    simp only [Prod.mk.injEq] at heq
    obtain ⟨hA, htr⟩ := heq
    subst htr
    have hst2 : (updateCounters ci run rc).2 ≤ MAX_RUNS + 1 := by
      simp only [updateCounters]
      split <;> simp <;> omega
    have hstinv : (updateCounters ci run rc).2 = MAX_RUNS + 1
        → (updateCounters ci run rc).1 < MAX_ITERS := by
      intro hfull
      simp only [updateCounters] at hfull ⊢
      rcases Classical.em (rc = 0) with hrc | hrc
      · simp only [if_pos hrc]
        have : (1 : Nat) < MAX_ITERS := by decide
        simpa using this
      · simp only [if_neg hrc] at hfull ⊢
        omega
    set EL2 := experimentsLoop coder env (updateCounters ci run rc).1
      (updateCounters ci run rc).2 (nc + 1) (nr + 1) (some res') with hEL
    have hpair : EL2 = (Except.ok (false, r), EL2.2) := by
      rw [← hA]
    obtain ⟨hm, hs⟩ := ih hst2 hstinv r EL2.2 hpair
    have hco : strContains co allCompleted = false := by
      revert h3
      cases strContains co allCompleted <;> simp
    rw [hasMarkerReply_reply, hasMarkerReply_attempt, successCount_reply, successCount_attempt]
    constructor
    · simp [hco, hm]
    · by_cases hrc : rc = 0
      · have hu2 : (updateCounters ci run rc).2 = run + 1 := by
          simp [updateCounters, hrc]
        rw [hu2] at hs
        simp only [if_pos hrc]
        omega
      · have hu2 : (updateCounters ci run rc).2 = run := by
          simp [updateCounters, hrc]
        rw [hu2] at hs
        simp only [if_neg hrc]
        omega
  | case5 ci run nc nr res h1 =>
    intro hrun hinv r tr heq
    have hfull : run = MAX_RUNS + 1 := by omega
    have hci : ¬ MAX_ITERS ≤ ci := by
      have := hinv hfull
      omega
    rw [experimentsLoop, if_neg h1] at heq
    cases res <;> simp [loopReturn, if_neg hci] at heq

theorem expLoop_no_error (coder : Nat → Str) (env : Nat → ProcOutcome × Artifact × Bool)
    (hok : ∀ n run_num, ∃ v, runExperimentAt env n run_num = .ok v) :
    ∀ ci run nc nr res, res.isSome = true →
    ∃ br, (experimentsLoop coder env ci run nc nr res).1 = .ok br := by
  intro ci run nc nr res
  induction ci, run, nc, nr, res using experimentsLoop.induct coder env with
  | case1 ci run nc nr res h1 h2 =>
    intro hres
    cases res with
    | none => simp at hres
    | some rr =>
      rw [experimentsLoop, if_pos h1, if_pos h2]
      exact ⟨(false, rr), by simp [loopReturn, if_pos h2]⟩
  | case2 ci run nc nr res h1 h2 co h3 =>
    intro hres
    cases res with
    | none => simp at hres
    | some rr =>
      rw [experimentsLoop, if_pos h1, if_neg h2, if_pos h3]
      exact ⟨(true, rr), by simp [loopReturn, if_neg h2]⟩
  | case3 ci run nc nr res h1 h2 co h3 e hx =>
    intro hres
    obtain ⟨v, hv⟩ := hok nr run
    rw [hv] at hx
    cases hx
  | case4 ci run nc nr res h1 h2 co h3 rc np res' dir hx st ih =>
    intro hres
    rw [experimentsLoop, if_pos h1, if_neg h2, if_neg h3, hx]
    exact ih rfl
  | case5 ci run nc nr res h1 =>
    intro hres
    cases res with
    | none => simp at hres
    | some rr =>
      rw [experimentsLoop, if_neg h1]
      unfold loopReturn
      split
      · exact ⟨(false, rr), rfl⟩
      · exact ⟨(true, rr), rfl⟩

/-- C1 (amended): provided every `run_experiment` invocation returns
normally and the coder's first reply does not contain `'ALL_COMPLETED'`
(otherwise the function raises `UnboundLocalError` instead of returning,
see the counterexample), `perform_experiments` returns `True` iff, in the
executed event sequence, the success counter reaches `MAX_RUNS` or a
consumed coder reply contains the completion marker, strictly before
`MAX_ITERS` consecutive failed attempts accumulate; otherwise it returns
`False`. -/
theorem C1_amended_success_iff (coder : Nat → Str)
    (env : Nat → ProcOutcome × Artifact × Bool)
    (hok : ∀ n run_num, ∃ v, runExperimentAt env n run_num = .ok v)
    (hfirst : strContains (coder 0) allCompleted = false) :
    (∃ r, (perform_experiments coder env).1 = .ok (true, r))
      ↔ specSuccess (perform_experiments coder env).2 := by
  constructor
  · rintro ⟨r, hr⟩
    have hpair : experimentsLoop coder env 0 1 0 0 none
        = (Except.ok (true, r), (perform_experiments coder env).2) := by
      rw [← hr]
      rfl
    obtain ⟨ha, hb, hc⟩ :=
      expLoop_ok_true coder env 0 1 0 0 none (by decide) r _ hpair
    refine ⟨(perform_experiments coder env).2, List.prefix_refl _, ?_, hc⟩
    rcases ha with ha | ha
    · exact Or.inl (by omega)
    · exact Or.inr ha
  · intro hspec
    by_contra hnot
    have hfirstneg : ¬ strContains (coder 0) allCompleted = true := by
      simp [hfirst]
    obtain ⟨⟨⟨rc, np, res'⟩, d⟩, hv⟩ := hok 0 1
    have hunf : perform_experiments coder env
        = ((experimentsLoop coder env (updateCounters 0 1 rc).1
              (updateCounters 0 1 rc).2 1 1 (some res')).1,
           Ev.reply (coder 0) :: Ev.attempt rc ::
             (experimentsLoop coder env (updateCounters 0 1 rc).1
               (updateCounters 0 1 rc).2 1 1 (some res')).2) := by
      rw [perform_experiments, experimentsLoop, if_pos (by decide),
        if_neg (by decide), if_neg hfirstneg, hv]
    obtain ⟨⟨b, rr⟩, hbr⟩ := expLoop_no_error coder env hok
      (updateCounters 0 1 rc).1 (updateCounters 0 1 rc).2 1 1 (some res') rfl
    cases b with
    | true =>
      refine hnot ⟨rr, ?_⟩
      rw [hunf]
      exact hbr
    | false =>
      have hres1 : (perform_experiments coder env).1 = .ok (false, rr) := by
        rw [hunf]
        exact hbr
      have hpairInit : experimentsLoop coder env 0 1 0 0 none
          = (Except.ok (false, rr), (perform_experiments coder env).2) := by
        rw [← hres1]
        rfl
      obtain ⟨hm, hs⟩ := expLoop_ok_false coder env 0 1 0 0 none (by decide)
        (by intro h; exact absurd h (by decide)) rr _ hpairInit
      obtain ⟨p, hp, hcond, hmax⟩ := hspec
      rcases hcond with hsc | hmk
      · have := successCount_mono hp
        omega
      · have := hasMarkerReply_mono hp hmk
        rw [this] at hm
        cases hm

/-- Counterexample to C1 as stated: when the coder's very first reply
contains `'ALL_COMPLETED'`, the claim's success condition holds (the marker
appears strictly before any failed attempt), yet `perform_experiments` does
not return `True`: it raises `UnboundLocalError`, because `results` was
never assigned. -/
theorem C1_counterexample :
    (perform_experiments coderMarker envAllOk).1 = .error .unboundLocal
    ∧ specSuccess (perform_experiments coderMarker envAllOk).2 := by
  have hm : strContains (coderMarker 0) allCompleted = true := by decide
  have hunf : perform_experiments coderMarker envAllOk
      = (loopReturn 0 none, [Ev.reply (coderMarker 0)]) := by
    rw [perform_experiments, experimentsLoop, if_pos (by decide),
      if_neg (by decide), if_pos hm]
  constructor
  · rw [hunf]
    rfl
  · refine ⟨[Ev.reply (coderMarker 0)], ?_, Or.inr ?_, ?_⟩
    · rw [hunf]
    · simp [hasMarkerReply, hm]
    · decide

/-- Witness for C1 (amended) at a coder that never emits the marker and an
environment where every attempt succeeds: the loop returns `True` and the
spec-side success condition holds for the executed trace. -/
theorem C1_amended_success_iff_witness :
    specSuccess (perform_experiments coderQuiet envAllOk).2 := by
  have hres : (perform_experiments coderQuiet envAllOk).1 = .ok (true, []) := by
    simp +decide [perform_experiments, experimentsLoop, runExperimentAt, envAllOk,
      coderQuiet, run_experiment, updateCounters, loopReturn, MAX_RUNS, MAX_ITERS]
  exact (C1_amended_success_iff coderQuiet envAllOk
    (fun n run_num => ⟨((0, successPrompt run_num [], []), true), rfl⟩)
    (by decide)).mp ⟨[], hres⟩

/-- C10: whenever `perform_experiments` returns normally, `run_experiment`
was invoked at least once (the trace contains an attempt); and if the
coder's very first reply contains `'ALL_COMPLETED'`, the function raises
`UnboundLocalError` (the `results` local is never bound) instead of
returning. -/
theorem C10_first_reply_marker_raises (coder : Nat → Str)
    (env : Nat → ProcOutcome × Artifact × Bool) :
    (strContains (coder 0) allCompleted = true →
      (perform_experiments coder env).1 = .error .unboundLocal)
    ∧ ∀ v, (perform_experiments coder env).1 = .ok v →
        ∃ rc, Ev.attempt rc ∈ (perform_experiments coder env).2 := by
  constructor
  · intro hm
    rw [perform_experiments, experimentsLoop, if_pos (by decide),
      if_neg (by decide), if_pos hm]
    rfl
  · intro v hv
    by_cases hm : strContains (coder 0) allCompleted = true
    · rw [perform_experiments, experimentsLoop, if_pos (by decide),
        if_neg (by decide), if_pos hm] at hv
      simp +decide [loopReturn, MAX_ITERS] at hv
    · rcases hx : runExperimentAt env 0 1 with e | ⟨⟨rc, np, res'⟩, d⟩
      · rw [perform_experiments, experimentsLoop, if_pos (by decide),
          if_neg (by decide), if_neg hm, hx] at hv
        simp at hv
      · refine ⟨rc, ?_⟩
        rw [perform_experiments, experimentsLoop, if_pos (by decide),
          if_neg (by decide), if_neg hm, hx]
        simp

/-- Witness for C10: at a coder whose first reply is the marker, the
function indeed raises `UnboundLocalError`. -/
theorem C10_first_reply_marker_raises_witness :
    (perform_experiments coderMarker envAllOk).1 = .error .unboundLocal :=
  (C10_first_reply_marker_raises coderMarker envAllOk).1 (by decide)

/-- Counterexample to C3 as stated: from `current_iter = 0`, `run = 1`, a
successful attempt (return code 0) does not leave `current_iter` at zero:
the code resets it to zero and then unconditionally increments it, yielding
`(current_iter, run) = (1, 2)` rather than the claimed `(0, 2)`. -/
theorem C3_counterexample : updateCounters 0 1 0 ≠ (0, 2) := by decide

/-- C3 (amended): in every iteration of the `perform_experiments` loop, a
successful attempt sets `current_iter` to 1 (the reset to zero is followed
by the shared end-of-iteration increment) and advances `run` by one, while
a failed attempt increments `current_iter` by exactly one and leaves `run`
unchanged. -/
theorem C3_amended_counter_update (ci run : Nat) (rc : Int) :
    updateCounters ci run rc
      = if rc = 0 then (1, run + 1) else (ci + 1, run) := by
  by_cases h : rc = 0 <;> simp [updateCounters, h]

/-- C5: after a zero-exit attempt, a missing `results.json` raises
`FileNotFoundError` and a malformed one raises `JSONDecodeError` inside
`run_experiment`; neither is caught in `run_experiment` or
`perform_experiments`, so the exception propagates to the per-idea handler
in `do_idea`, which marks the idea as failed (returns `False`). -/
theorem C5_artifact_read_error_propagates (se : Str) (d : Bool) (rn t : Nat)
    (coder : Nat → Str) (env : Nat → ProcOutcome × Artifact × Bool)
    (hfirst : strContains (coder 0) allCompleted = false)
    (henv : env 0 = (.completed 0 se, .missing, d)) :
    run_experiment (.completed 0 se) .missing d rn t = .error .fileNotFound
    ∧ run_experiment (.completed 0 se) .malformed d rn t = .error .jsonDecode
    ∧ (perform_experiments coder env).1 = .error .fileNotFound
    ∧ doIdeaExperimentPhase (perform_experiments coder env).1 = some false := by
  have hfirstneg : ¬ strContains (coder 0) allCompleted = true := by
    simp [hfirst]
  have hx : runExperimentAt env 0 1 = .error .fileNotFound := by
    rw [runExperimentAt, henv]
    rfl
  have hres : (perform_experiments coder env).1 = .error .fileNotFound := by
    rw [perform_experiments, experimentsLoop, if_pos (by decide),
      if_neg (by decide), if_neg hfirstneg, hx]
  refine ⟨rfl, rfl, hres, ?_⟩
  rw [hres]
  rfl

/-- Witness for C5 at a concrete coder and environment. -/
theorem C5_artifact_read_error_propagates_witness :
    (perform_experiments coderQuiet envMissing).1 = .error .fileNotFound
    ∧ doIdeaExperimentPhase (perform_experiments coderQuiet envMissing).1
        = some false :=
  ⟨(C5_artifact_read_error_propagates [] true 1 7200 coderQuiet envMissing
      (by decide) rfl).2.2.1,
   (C5_artifact_read_error_propagates [] true 1 7200 coderQuiet envMissing
      (by decide) rfl).2.2.2⟩

theorem reflLoop_calls_le {κ : Type} (texts : Nat → Str)
    (extractJ : Str → Option (List κ)) :
    ∀ fuel j cur, (reflLoop texts extractJ j fuel cur).2 ≤ fuel := by
  intro fuel
  induction fuel with
  | zero => intro j cur; simp [reflLoop]
  | succ fuel ih =>
    intro j cur
    rw [reflLoop]
    cases extractJ (texts (j + 1)) with
    | none => simp
    | some out =>
      by_cases hm : strContains (texts (j + 1)) doneMarker = true
      · simp [hm]
      · simp only [hm]
        simp only [Bool.false_eq_true, if_false]
        have := ih (j + 1) out
        omega

theorem reflLoop_stops_at_marker {κ : Type} (texts : Nat → Str)
    (extractJ : Str → Option (List κ)) :
    ∀ fuel j cur m, j < m → strContains (texts m) doneMarker = true →
    m - j ≤ (reflLoop texts extractJ j fuel cur).2 →
    (reflLoop texts extractJ j fuel cur).2 = m - j := by
  intro fuel
  induction fuel with
  | zero =>
    intro j cur m hjm hm hle
    simp [reflLoop] at hle ⊢
    omega
  | succ fuel ih =>
    intro j cur m hjm hm hle
    rw [reflLoop] at hle ⊢
    cases hext : extractJ (texts (j + 1)) with
    | none =>
      simp [hext] at hle ⊢
      omega
    | some out =>
      by_cases hmk : strContains (texts (j + 1)) doneMarker = true
      · simp [hext, hmk] at hle ⊢
        omega
      · have hne : m ≠ j + 1 := by
          intro hcontra
          rw [hcontra] at hm
          exact absurd hm hmk
        simp only [hext, hmk, Bool.false_eq_true, if_false] at hle ⊢
        have hjm1 : j + 1 < m := by omega
        have hle1 : m - (j + 1) ≤ (reflLoop texts extractJ (j + 1) fuel out).2 := by
          omega
        have := ih (j + 1) out m hjm1 hm hle1
        omega

/-- C2: for every idea attempt with round budget `num_reflections = N ≥ 1`,
the model is called at most `N` times for that idea (one first-draft round
plus at most `N - 1` reflection rounds), and once a reflection round whose
reply contains the convergence phrase `'I am done'` has executed, it is the
last round: the call count for the idea is exactly that round's index plus
one, even before round `N`. -/
theorem C2_reflection_budget_and_convergence {κ : Type} (texts : Nat → Str)
    (extractJ : Str → Option (List κ)) (dumps : κ → Str) (N : Nat)
    (hN : 1 ≤ N) :
    (ideaSeq texts extractJ dumps N).calls ≤ N
    ∧ ∀ j, 1 ≤ j → strContains (texts j) doneMarker = true →
        j + 1 ≤ (ideaSeq texts extractJ dumps N).calls →
        (ideaSeq texts extractJ dumps N).calls = j + 1 := by
  simp only [ideaSeq]
  cases hext : extractJ (texts 0) with
  | none =>
    simp only [hext]
    constructor
    · simpa using hN
    · intro j hj hm hle
      simp at hle
      omega
  | some out =>
    simp only [hext]
    by_cases hN1 : 1 < N
    · rw [if_pos hN1]
      constructor
      · have := reflLoop_calls_le texts extractJ (N - 1) 0 out
        simp
        omega
      · intro j hj hm hle
        simp at hle ⊢
        have hstop := reflLoop_stops_at_marker texts extractJ (N - 1) 0 out j
          (by omega) hm (by omega)
        omega
    · rw [if_neg hN1]
      constructor
      · simp
        omega
      · intro j hj hm hle
        simp at hle
        omega

theorem genLoop_log_length {κ : Type} (texts : Nat → Str)
    (extractJ : Str → Option (List κ)) (dumps : κ → Str)
    (dumpsAll : List κ → Str) (N : Nat) :
    ∀ fuel cb prev,
      ((genLoop texts extractJ dumps dumpsAll N fuel cb prev).2.1).length
        = fuel := by
  intro fuel
  induction fuel with
  | zero => intro cb prev; rfl
  | succ fuel ih =>
    intro cb prev
    rw [genLoop]
    cases hres : (ideaSeq (fun n => texts (cb + n)) extractJ dumps N).result <;>
      simp [hres, ih]

/-- C8: if an idea's sequence raises (extraction returning `None` fails the
assert, or any other exception), the remaining rounds of that idea are
abandoned, nothing is appended to the idea archive for it, and the outer
loop continues with the next idea from the advanced call state; moreover
every one of the `max_num_generations` idea slots is attempted (the log
always has exactly `fuel` entries), so a failing idea never aborts the
batch. -/
theorem C8_failed_idea_skipped_batch_continues {κ : Type} (texts : Nat → Str)
    (extractJ : Str → Option (List κ)) (dumps : κ → Str)
    (dumpsAll : List κ → Str) (N fuel cb : Nat) (prev : Str) (e : PyErr)
    (herr : (ideaSeq (fun n => texts (cb + n)) extractJ dumps N).result
      = .error e) :
    (genLoop texts extractJ dumps dumpsAll N (fuel + 1) cb prev).1
      = (genLoop texts extractJ dumps dumpsAll N fuel
          (cb + (ideaSeq (fun n => texts (cb + n)) extractJ dumps N).calls)
          (((ideaSeq (fun n => texts (cb + n)) extractJ dumps N).prevUpdate).getD
            prev)).1
    ∧ ∀ fuel' cb' : Nat, ∀ prev' : Str,
        ((genLoop texts extractJ dumps dumpsAll N fuel' cb' prev').2.1).length
          = fuel' := by
  constructor
  · rw [genLoop]
    simp only [herr]
  · exact genLoop_log_length texts extractJ dumps dumpsAll N

/-- Witness for C2: with the convergence phrase in reply 1 and budget 5,
the idea consumes exactly 2 model calls. -/
theorem C2_reflection_budget_and_convergence_witness :
    (ideaSeq textsDemo extractDemo dumpsNat 5).calls = 2 :=
  (C2_reflection_budget_and_convergence textsDemo extractDemo dumpsNat 5
    (by decide)).2 1 (by decide) (by decide) (by decide)

/-- Witness for C8: with extraction always failing, all 2 idea slots are
still attempted. -/
theorem C8_failed_idea_skipped_batch_continues_witness :
    ((genLoop textsDemo extractNone dumpsNat dumpsAllNat 5 2 0 []).2.1).length
      = 2 :=
  (C8_failed_idea_skipped_batch_continues textsDemo extractNone dumpsNat
    dumpsAllNat 5 1 0 [] .assertionError rfl).2 2 0 []

theorem genLoop_prevChain {κ : Type} (texts : Nat → Str)
    (extractJ : Str → Option (List κ)) (dumps : κ → Str)
    (dumpsAll : List κ → Str) (N : Nat) :
    ∀ fuel cb prev,
      prevChain prev (genLoop texts extractJ dumps dumpsAll N fuel cb prev).2.1 := by
  intro fuel
  induction fuel with
  | zero => intro cb prev; trivial
  | succ fuel ih =>
    intro cb prev
    rw [genLoop]
    cases hres : (ideaSeq (fun n => texts (cb + n)) extractJ dumps N).result <;>
      simp only [hres] <;>
      exact ⟨rfl, ih _ _⟩

/-- C4 (amended): the `prev_idea` field of each idea's first-draft prompt is
not the concatenation of all previously produced idea JSON strings; it is
replaced, not extended: idea 0's prompt uses the seed-idea join (or the
empty string without seeds), and each subsequent idea's prompt uses the
items-join of the most recent successful first-draft extraction, the
previous value being discarded. -/
theorem C4_amended_prev_idea_replaced {κ ι : Type} (ideasFile : IdeasFile ι)
    (skip_generation : Bool) (texts : Nat → Str)
    (extractJ : Str → Option (List κ)) (dumps : κ → Str)
    (dumpsAll : List κ → Str) (loads : Str → ι) (seedFile : Option (List κ))
    (maxg N : Nat) :
    prevChain (initialPrevIdea dumps seedFile)
      (generate_ideas ideasFile skip_generation texts extractJ dumps dumpsAll
        loads seedFile maxg N).log := by
  unfold generate_ideas
  cases skip_generation with
  | false =>
    cases ideasFile <;>
      exact genLoop_prevChain texts extractJ dumps dumpsAll N maxg 0 _
  | true =>
    cases ideasFile with
    | parsed v => trivial
    | absent => exact genLoop_prevChain texts extractJ dumps dumpsAll N maxg 0 _
    | malformed => exact genLoop_prevChain texts extractJ dumps dumpsAll N maxg 0 _

/-- Counterexample to C4 as stated: with one seed idea (dumped as `"7"`)
and every extraction yielding the payload `[5]` (dumped as `"5"`), idea 1's
first-draft prompt is rendered with `prev_idea = "5"` — only idea 0's
first-draft JSON — and not with the claimed concatenation of all previously
produced idea JSON strings plus the seed, which would be `"7\n\n5"`. -/
theorem C4_counterexample :
    ((generate_ideas (κ := Nat) (ι := Nat) .absent false textsDemo extractFive
        dumpsNat dumpsAllNat loadsNat (some [7]) 2 1).log).get? 1
      = some ("5".toList, some ("5".toList))
    ∧ "5".toList ≠ "7".toList ++ "\n\n".toList ++ "5".toList := by
  constructor
  · decide
  · decide

/-- C9: with `skip_generation` set and a parseable `ideas.json`,
`generate_ideas` returns exactly the persisted list, performs no model
calls, and does not rewrite `ideas.json` within the call. -/
theorem C9_skip_generation_idempotent {κ ι : Type} (v : List ι)
    (texts : Nat → Str) (extractJ : Str → Option (List κ)) (dumps : κ → Str)
    (dumpsAll : List κ → Str) (loads : Str → ι) (seedFile : Option (List κ))
    (maxg N : Nat) :
    (generate_ideas (.parsed v) true texts extractJ dumps dumpsAll loads
        seedFile maxg N).ideas = v
    ∧ (generate_ideas (.parsed v) true texts extractJ dumps dumpsAll loads
        seedFile maxg N).llmCalls = 0
    ∧ (generate_ideas (.parsed v) true texts extractJ dumps dumpsAll loads
        seedFile maxg N).wroteIdeasJson = none :=
  ⟨rfl, rfl, rfl⟩
